import Mathlib

/-!
# unwarp.h: the Cython-generated public header of the `unwarp` extension module

The only source file is `src/cython/distortion/unwarp.h`, a header made of
preprocessor directives and five prototype lines.  The embedding has two layers:

* the header itself, as the value `unwarp_h`: a tree of directives and token
  lines that mirrors the file line by line;
* the part of the C preprocessor the header exercises, as the executable
  interpreter `runItems`: conditional inclusion, `#define`, macro replacement
  with rescanning (C11 6.10.3), and the arithmetic of `#if` (C11 6.10.1).

The interpreter answers `none` for a preprocessing error and for what lies
outside the part it follows; wherever it answers, it follows the standard:

* replacement lists are rescanned, along with the tokens that follow them,
  with the macro under replacement hidden; an argument is completely replaced
  before it is substituted for a parameter; a macro name met while hidden
  stays marked.  An invocation may start in a replacement and end after it;
  where the standard leaves the nesting open (C11 6.10.3.4 EXAMPLE), the
  finished replacement is no longer hidden, as in compilers.  Nesting deeper
  than `expansionDepth` is left out;
* text is replaced line by line, so a line must not end inside an invocation
  or in the name of a function-like macro;
* the operators `#`, `##` and `defined`, variadic macros and `#undef` are
  absent; `#define` of a defined name replaces the older definition;
* `#if` arithmetic is that of `intmax_t` and `uintmax_t` with 64 bits, over
  decimal constants without suffix; in an evaluated operand, signed overflow,
  division by zero and the shifts C does not define are left out, and so is
  a constant beyond 64 bits anywhere.

The lines that reach the compiler are read as prototypes by `parsePrototype`,
which accepts one prototype per line and nothing that could define a type,
an object or a second declarator.
-/

namespace Unwarp

/-- Preprocessing tokens.  The three punctuators that drive macro invocation
have constructors of their own; every other punctuator is `punct`.  A number
is kept by its value. -/
inductive Tok where
  | id (name : String)
  | num (value : Nat)
  | str (text : String)
  | lparen
  | rparen
  | comma
  | punct (sym : String)
deriving DecidableEq, Repr

/-- What `#define` stores: an object-like macro (`#define N body`) or a
function-like macro (`#define N(params) body`). -/
inductive MacroDef where
  | obj (body : List Tok)
  | fn (params : List String) (body : List Tok)
deriving DecidableEq, Repr

/-- The preprocessor state: the macros defined so far, most recent first. -/
abbrev Env := List (String × MacroDef)

/-- The definition currently bound to a macro name, if any. -/
def lookup : Env → String → Option MacroDef
  | [], _ => none
  | (k, d) :: rest, n => if k = n then some d else lookup rest n

/-! ## Macro replacement (C11 6.10.3) -/

/-- A token under replacement, with the mark of C11 6.10.3.4p2: a marked
macro name is no longer available for replacement. -/
abbrev MTok := Tok × Bool

/-- Tokens as written, none marked. -/
def fresh (toks : List Tok) : List MTok := toks.map (fun t => (t, false))

/-- Forget the marks. -/
def strip (toks : List MTok) : List Tok := toks.map (fun t => t.1)

/-- The argument bound to parameter `x`, if `x` is a parameter. -/
def argFor : List String → List (List MTok) → String → Option (List MTok)
  | p :: ps, a :: more, x => if p = x then some a else argFor ps more x
  | _, _, _ => none

/-- Replace every parameter in a replacement list by its (already replaced)
argument; the other tokens of the list are new and unmarked. -/
def substitute (ps : List String) (args : List (List MTok)) : List Tok → List MTok
  | [] => []
  | Tok.id x :: rest =>
    match argFor ps args x with
    | some a => a ++ substitute ps args rest
    | none => (Tok.id x, false) :: substitute ps args rest
  | t :: rest => (t, false) :: substitute ps args rest

/-- The arguments of an invocation matched against the parameters: their
numbers must agree, and `N()` is the call of a macro without parameters. -/
def bindArgs (ps : List String) (args : List (List MTok)) : Option (List (List MTok)) :=
  if args.length = ps.length then some args
  else if ps = [] ∧ args = [[]] then some []
  else none

/-- A function-like macro invocation whose argument list is being read:
the macro, the parenthesis depth inside the current argument, the arguments
already closed by a comma, and the tokens of the current argument. -/
structure Call where
  name : String
  params : List String
  body : List Tok
  depth : Nat
  done : List (List MTok)
  cur : List MTok
deriving Repr

/-- Where the scan of a token sequence stands: in plain text; just after the
unmarked name of a function-like macro, which waits for the next token; or
inside the argument list of an invocation. -/
inductive Mode where
  | normal
  | named (x : String) (ps : List String) (body : List Tok)
  | args (c : Call)
deriving Repr

/-- End of a token sequence that nothing follows: the name of a
function-like macro that waited for the next token is copied, an unfinished
argument list is an error. -/
def finish : Mode → Option (List MTok)
  | .normal => some []
  | .named x _ _ => some [(Tok.id x, false)]
  | .args _ => none

/-- The complete replacement of a token sequence that nothing follows, from
the result of its scan. -/
def complete : Option (Mode × List MTok) → Option (List MTok)
  | some (m, out) => (finish m).map (fun last => out ++ last)
  | none => none

/-- Mark the names of the macros in `hidden` among tokens collected for an
argument. -/
def paint (hidden : List String) (toks : List MTok) : List MTok :=
  toks.map (fun t =>
    match t with
    | (Tok.id x, false) => if x ∈ hidden then (Tok.id x, true) else t
    | _ => t)

/-- The mode in which the scan of a replacement hands over to the tokens that
follow it (C11 6.10.3.4p1: the replacement is rescanned along with the rest
of the source).  An invocation whose argument list is still open goes on
outside; the tokens collected so far were read while the macros in `hidden`
were being replaced, so their names among them are marked. -/
def handOver (hidden : List String) : Mode → Mode
  | .args c =>
    .args ⟨c.name, c.params, c.body, c.depth, c.done.map (paint hidden), paint hidden c.cur⟩
  | m => m

/-- Replace the arguments of an invocation one by one.  An argument is
completely macro replaced where its parameter occurs in the replacement list
(C11 6.10.3.1p1); an argument whose parameter does not occur is never
replaced, so nothing in it can fail. -/
def replaceAll (sub : List MTok → Option (List MTok)) (body : List Tok) :
    List String → List (List MTok) → Option (List (List MTok))
  | p :: ps, a :: more =>
    match (if Tok.id p ∈ body then sub a else some a), replaceAll sub body ps more with
    | some x, some xs => some (x :: xs)
    | _, _ => none
  | _, _ => some []

/-- One token of plain text.  An unmarked identifier that names a macro is
marked if that macro is being replaced (`hidden`); otherwise an object-like
macro is replaced by its rescanned replacement list (`sub`, with the macro
hidden), the scan going on in the mode the rescan ends in, and the name of a
function-like macro waits for the next token.  Every other token is
copied. -/
def stepNormal (env : Env) (sub : List String → List MTok → Option (Mode × List MTok))
    (hidden : List String) : MTok → Option (Mode × List MTok)
  | (Tok.id x, false) =>
    match lookup env x with
    | none => some (.normal, [(Tok.id x, false)])
    | some d =>
      if x ∈ hidden then some (.normal, [(Tok.id x, true)])
      else
        match d with
        | .obj body => sub (x :: hidden) (fresh body)
        | .fn ps body => some (.named x ps body, [])
  | t => some (.normal, [t])

/-- The closing parenthesis of an invocation: the arguments are matched with
the parameters, each one in use is completely replaced on its own, the results
are substituted into the replacement list, and the list is rescanned with the
macro hidden, the scan going on in the mode the rescan ends in (C11 6.10.3.1,
6.10.3.4). -/
def closeCall (env : Env) (sub : List String → List MTok → Option (Mode × List MTok))
    (hidden : List String) (c : Call) : Option (Mode × List MTok) :=
  match bindArgs c.params (c.done ++ [c.cur]) with
  | none => none
  | some raw =>
    match replaceAll (fun a => complete (sub hidden a)) c.body c.params raw with
    | none => none
    | some xs => sub (c.name :: hidden) (substitute c.params xs c.body)

/-- One token inside an argument list: commas at depth 0 separate arguments,
the closing parenthesis at depth 0 ends the invocation.  Argument tokens are
collected as they stand. -/
def stepArgs (env : Env) (sub : List String → List MTok → Option (Mode × List MTok))
    (hidden : List String) (c : Call) : MTok → Option (Mode × List MTok)
  | (Tok.lparen, b) =>
    some (.args ⟨c.name, c.params, c.body, c.depth + 1, c.done, c.cur ++ [(Tok.lparen, b)]⟩, [])
  | (Tok.rparen, b) =>
    if c.depth = 0 then closeCall env sub hidden c
    else
      some (.args ⟨c.name, c.params, c.body, c.depth - 1, c.done,
        c.cur ++ [(Tok.rparen, b)]⟩, [])
  | (Tok.comma, b) =>
    if c.depth = 0 then
      some (.args ⟨c.name, c.params, c.body, 0, c.done ++ [c.cur], []⟩, [])
    else
      some (.args ⟨c.name, c.params, c.body, c.depth, c.done, c.cur ++ [(Tok.comma, b)]⟩, [])
  | t => some (.args ⟨c.name, c.params, c.body, c.depth, c.done, c.cur ++ [t]⟩, [])

/-- One token of a sequence: the next mode and the tokens emitted.  The name
of a function-like macro is an invocation only when `(` is the next token;
otherwise the name is copied and the token is read as plain text. -/
def step (env : Env) (sub : List String → List MTok → Option (Mode × List MTok))
    (hidden : List String) : Mode → MTok → Option (Mode × List MTok)
  | .normal, t => stepNormal env sub hidden t
  | .named x ps body, (Tok.lparen, _) => some (.args ⟨x, ps, body, 0, [], []⟩, [])
  | .named x _ _, t =>
    (stepNormal env sub hidden t).map (fun r => (r.1, (Tok.id x, false) :: r.2))
  | .args c, t => stepArgs env sub hidden c t

/-- Scan a token sequence from a mode: the final mode and the output. -/
def scan (env : Env) (sub : List String → List MTok → Option (Mode × List MTok))
    (hidden : List String) : Mode → List MTok → Option (Mode × List MTok)
  | m, [] => some (m, [])
  | m, t :: rest =>
    match step env sub hidden m t with
    | none => none
    | some (m1, out) =>
      match scan env sub hidden m1 rest with
      | none => none
      | some (m2, more) => some (m2, out ++ more)

/-- The rescan of a replacement list, or the scan of an argument, while the
macros in `hidden` are being replaced: the output and the mode handed over to
what follows.  The first argument bounds the nesting of replacements; beyond
it the result is `none`. -/
def expand (env : Env) : Nat → List String → List MTok → Option (Mode × List MTok)
  | 0, _, _ => none
  | n + 1, hidden, toks =>
    match scan env (expand env n) hidden .normal toks with
    | none => none
    | some (m, out) => some (handOver hidden m, out)

/-- The nesting of replacements the model follows. -/
def expansionDepth : Nat := 64

/-- The scan of source text, outside any replacement. -/
def scanText (env : Env) (m : Mode) (toks : List Tok) : Option (Mode × List MTok) :=
  scan env (expand env expansionDepth) [] m (fresh toks)

/-- Complete replacement of a token sequence taken on its own: what a macro
name or an invocation stands for, and the operand of `#if`. -/
def expandTokens (env : Env) (toks : List Tok) : Option (List Tok) :=
  match scanText env .normal toks with
  | none => none
  | some (m, out) => (finish m).map (fun last => strip (out ++ last))

/-- Macro replacement over one line of text.  A line must end in plain text:
an invocation that could go on in the next line is left out (`none`). -/
def expandLine (env : Env) (toks : List Tok) : Option (List Tok) :=
  match scanText env .normal toks with
  | some (.normal, out) => some (strip out)
  | _ => none

/-! ## The controlling expression of `#if` (C11 6.10.1) -/

/-- A value of `#if` arithmetic: 64 bits, read as `intmax_t` or as
`uintmax_t` (C11 6.10.1p4).  `bits` is below `2 ^ 64`. -/
structure Val where
  isUnsigned : Bool
  bits : Nat
deriving DecidableEq, Repr

/-- The integer a value stands for. -/
def Val.toInt (v : Val) : Int :=
  if v.isUnsigned then (v.bits : Int)
  else if v.bits < 2 ^ 63 then (v.bits : Int) else (v.bits : Int) - 2 ^ 64

/-- A signed result; a result outside `intmax_t` is undefined (`none`). -/
def signedVal (i : Int) : Option Val :=
  if -(2 ^ 63) ≤ i ∧ i < 2 ^ 63 then some ⟨false, (i % 2 ^ 64).toNat⟩ else none

/-- An unsigned result, reduced modulo `2 ^ 64`. -/
def unsignedVal (n : Nat) : Val := ⟨true, n % 2 ^ 64⟩

/-- The result of a comparison or logical operator. -/
def boolVal (b : Bool) : Val := ⟨false, if b then 1 else 0⟩

/-- An integer constant without suffix: signed when it fits `intmax_t`,
unsigned when it only fits `uintmax_t`, not a constant beyond that. -/
def literalVal (n : Nat) : Option Val :=
  if n < 2 ^ 63 then some ⟨false, n⟩
  else if n < 2 ^ 64 then some ⟨true, n⟩
  else none

/-- Identifiers that are not plain names in a controlling expression: the
`defined` operator and the words C++ reads as constants or operators; the
parse also leaves out the `__has_...` operators of compilers. -/
def ifWords : List String :=
  ["defined", "true", "false", "and", "or", "not", "bitand", "bitor", "xor", "compl",
   "not_eq", "and_eq", "or_eq", "xor_eq"]

/-- The unary operators of a controlling expression. -/
def unaryOps : List String := ["+", "-", "~", "!"]

/-- A unary operator applied to a value; negation of the least `intmax_t`
overflows. -/
def applyUnary (op : String) (a : Val) : Option Val :=
  if op = "+" then some a
  else if op = "-" then
    if a.isUnsigned then some (unsignedVal (2 ^ 64 - a.bits)) else signedVal (-a.toInt)
  else if op = "~" then some ⟨a.isUnsigned, 2 ^ 64 - 1 - a.bits⟩
  else if op = "!" then some (boolVal (a.bits = 0))
  else none

/-- Binding strength of a binary operator, `none` for any other token. -/
def binaryLevel (op : String) : Option Nat :=
  if op = "*" ∨ op = "/" ∨ op = "%" then some 10
  else if op = "+" ∨ op = "-" then some 9
  else if op = "<<" ∨ op = ">>" then some 8
  else if op = "<" ∨ op = ">" ∨ op = "<=" ∨ op = ">=" then some 7
  else if op = "==" ∨ op = "!=" then some 6
  else if op = "&" then some 5
  else if op = "^" then some 4
  else if op = "|" then some 3
  else if op = "&&" then some 2
  else if op = "||" then some 1
  else none

/-- A binary operator applied to two values, after the usual arithmetic
conversions: the operation is unsigned as soon as one operand is.  Signed
overflow, division by zero and shifts that C leaves undefined or to the
implementation give `none`. -/
def applyBinary (op : String) (a b : Val) : Option Val :=
  if op = "&&" then some (boolVal (a.bits ≠ 0 ∧ b.bits ≠ 0))
  else if op = "||" then some (boolVal (a.bits ≠ 0 ∨ b.bits ≠ 0))
  else if op = "<<" then
    if b.toInt < 0 ∨ 64 ≤ b.toInt then none
    else if a.isUnsigned then some (unsignedVal (a.bits * 2 ^ b.bits))
    else if a.toInt < 0 then none
    else signedVal (a.toInt * 2 ^ b.bits)
  else if op = ">>" then
    if b.toInt < 0 ∨ 64 ≤ b.toInt then none
    else if a.isUnsigned then some (unsignedVal (a.bits / 2 ^ b.bits))
    else if a.toInt < 0 then none
    else signedVal (a.toInt / 2 ^ b.bits)
  else if a.isUnsigned ∨ b.isUnsigned then
    if op = "*" then some (unsignedVal (a.bits * b.bits))
    else if op = "/" then if b.bits = 0 then none else some (unsignedVal (a.bits / b.bits))
    else if op = "%" then if b.bits = 0 then none else some (unsignedVal (a.bits % b.bits))
    else if op = "+" then some (unsignedVal (a.bits + b.bits))
    else if op = "-" then some (unsignedVal (a.bits + (2 ^ 64 - b.bits)))
    else if op = "<" then some (boolVal (a.bits < b.bits))
    else if op = ">" then some (boolVal (b.bits < a.bits))
    else if op = "<=" then some (boolVal (a.bits ≤ b.bits))
    else if op = ">=" then some (boolVal (b.bits ≤ a.bits))
    else if op = "==" then some (boolVal (a.bits = b.bits))
    else if op = "!=" then some (boolVal (a.bits ≠ b.bits))
    else if op = "&" then some (unsignedVal (a.bits &&& b.bits))
    else if op = "^" then some (unsignedVal (a.bits ^^^ b.bits))
    else if op = "|" then some (unsignedVal (a.bits ||| b.bits))
    else none
  else
    if op = "*" then signedVal (a.toInt * b.toInt)
    else if op = "/" then
      if b.bits = 0 then none else signedVal (Int.tdiv a.toInt b.toInt)
    else if op = "%" then
      if b.bits = 0 then none
      else
        match signedVal (Int.tdiv a.toInt b.toInt) with
        | none => none
        | some _ => signedVal (Int.tmod a.toInt b.toInt)
    else if op = "+" then signedVal (a.toInt + b.toInt)
    else if op = "-" then signedVal (a.toInt - b.toInt)
    else if op = "<" then some (boolVal (a.toInt < b.toInt))
    else if op = ">" then some (boolVal (b.toInt < a.toInt))
    else if op = "<=" then some (boolVal (a.toInt ≤ b.toInt))
    else if op = ">=" then some (boolVal (b.toInt ≤ a.toInt))
    else if op = "==" then some (boolVal (a.bits = b.bits))
    else if op = "!=" then some (boolVal (a.bits ≠ b.bits))
    else if op = "&" then some ⟨false, a.bits &&& b.bits⟩
    else if op = "^" then some ⟨false, a.bits ^^^ b.bits⟩
    else if op = "|" then some ⟨false, a.bits ||| b.bits⟩
    else none

/-- Whether the result of a binary operator is unsigned: never for a logical
operator or a comparison, as the left operand for a shift, and as soon as one
operand is for the others. -/
def resultUnsigned (op : String) (a b : Val) : Bool :=
  if op ∈ ["&&", "||", "<", ">", "<=", ">=", "==", "!="] then false
  else if op = "<<" ∨ op = ">>" then a.isUnsigned
  else a.isUnsigned || b.isUnsigned

/-- Whether the right operand of a binary operator is evaluated, given the
left one: `&&` and `||` stop at a left operand that decides them. -/
def rightEvaluated (op : String) (a : Val) : Bool :=
  if op = "&&" then decide (a.bits ≠ 0)
  else if op = "||" then decide (a.bits = 0)
  else true

/-- The result of an operation inside an operand that may not be evaluated
(`live` false): there an operation without a value is no error (C11 6.6p3),
and only the type of its result counts. -/
def orSkipped (live isUnsigned : Bool) : Option Val → Option Val
  | some v => some v
  | none => if live then none else some ⟨isUnsigned, 0⟩

/-- The value of `c ? a : b`; its type joins those of `a` and `b`. -/
def applyCond (c a b : Val) : Val :=
  ⟨a.isUnsigned || b.isUnsigned, if c.bits ≠ 0 then a.bits else b.bits⟩

mutual
/-- A unary expression: a constant, an identifier (which counts as 0, C11
6.10.1p4), a parenthesised expression, or a unary operator and its operand.
The first argument bounds the nesting of the parse; `live` tells whether the
expression is evaluated. -/
def parseUnary : Nat → Bool → List Tok → Option (Val × List Tok)
  | 0, _, _ => none
  | n + 1, live, toks =>
    match toks with
    | Tok.num k :: rest => (literalVal k).map (fun v => (v, rest))
    | Tok.id x :: rest =>
      if x ∈ ifWords ∨ "__has_".toList.isPrefixOf x.toList then none
      else some (⟨false, 0⟩, rest)
    | Tok.lparen :: rest =>
      match parseBinary n live 0 rest with
      | some (v, Tok.rparen :: rest1) => some (v, rest1)
      | _ => none
    | Tok.punct op :: rest =>
      if op ∈ unaryOps then
        match parseUnary n live rest with
        | some (v, rest1) =>
          (orSkipped live v.isUnsigned (applyUnary op v)).map (fun r => (r, rest1))
        | none => none
      else none
    | _ => none
/-- An expression all of whose operators bind at least as strongly as
`level`; level 0 admits the conditional operator. -/
def parseBinary : Nat → Bool → Nat → List Tok → Option (Val × List Tok)
  | 0, _, _, _ => none
  | n + 1, live, level, toks =>
    match parseUnary n live toks with
    | some (v, rest) => parseMore n live level v rest
    | none => none
/-- The operators that follow a parsed left operand `lhs`.  The right operand
of `&&` and `||` and the two branches of `? :` are evaluated only as far as
the left operand asks for. -/
def parseMore : Nat → Bool → Nat → Val → List Tok → Option (Val × List Tok)
  | 0, _, _, _, _ => none
  | n + 1, live, level, lhs, toks =>
    match toks with
    | Tok.punct op :: rest =>
      if op = "?" then
        if level = 0 then
          match parseBinary n (live && decide (lhs.bits ≠ 0)) 0 rest with
          | some (a, Tok.punct sep :: rest1) =>
            if sep = ":" then
              match parseBinary n (live && decide (lhs.bits = 0)) 0 rest1 with
              | some (b, rest2) => some (applyCond lhs a b, rest2)
              | none => none
            else none
          | _ => none
        else some (lhs, toks)
      else
        match binaryLevel op with
        | some p =>
          if level ≤ p then
            match parseBinary n (live && rightEvaluated op lhs) (p + 1) rest with
            | some (rhs, rest1) =>
              match orSkipped (live && rightEvaluated op lhs) (resultUnsigned op lhs rhs)
                  (applyBinary op lhs rhs) with
              | some v => parseMore n live level v rest1
              | none => none
            | none => none
          else some (lhs, toks)
        | none => some (lhs, toks)
    | _ => some (lhs, toks)
end

/-- Truth of a macro-replaced controlling expression: it must parse as one
constant expression, and it holds when its value is not 0. -/
def evalTokens (toks : List Tok) : Option Bool :=
  match parseBinary (4 * toks.length + 4) true 0 toks with
  | some (v, []) => some (decide (v.bits ≠ 0))
  | _ => none

/-- Truth of the controlling expression of `#if`: the tokens are macro
replaced, then evaluated.  A `defined` operator is not part of the model. -/
def evalIf (env : Env) (toks : List Tok) : Option Bool :=
  if Tok.id "defined" ∈ toks then none
  else
    match expandTokens env toks with
    | none => none
    | some ts => evalTokens ts

/-! ## Directives -/

/-- The three conditional directives that open a group; `#if` keeps its
controlling expression as the tokens written. -/
inductive Cond where
  | ifDefined (name : String)
  | ifNotDefined (name : String)
  | ifExpr (toks : List Tok)
deriving Repr

/-- Whether the group after the directive is kept. -/
def evalCond (env : Env) : Cond → Option Bool
  | .ifDefined n => some (lookup env n).isSome
  | .ifNotDefined n => some (lookup env n).isNone
  | .ifExpr toks => evalIf env toks

/-- One element of a preprocessing file: a `#define`, a line of text, or a
conditional section with its `#else` part (empty when there is none). -/
inductive Item where
  | define (name : String) (d : MacroDef)
  | text (toks : List Tok)
  | cond (c : Cond) (thn els : List Item)

mutual
/-- Process one item: the new macro environment and the text lines emitted. -/
def runItem (env : Env) : Item → Option (Env × List (List Tok))
  | .define n d => some ((n, d) :: env, [])
  | .text toks => (expandLine env toks).map (fun l => (env, [l]))
  | .cond c thn els =>
    match evalCond env c with
    | none => none
    | some true => runItems env thn
    | some false => runItems env els
/-- Process a sequence of items in order, threading the environment. -/
def runItems (env : Env) : List Item → Option (Env × List (List Tok))
  | [] => some (env, [])
  | i :: rest =>
    match runItem env i with
    | none => none
    | some (env1, out1) =>
      match runItems env1 rest with
      | none => none
      | some (env2, out2) => some (env2, out1 ++ out2)
end

/-! ## The header -/

/-- The source line `__PYX_EXTERN_C DL_IMPORT(void) f(char *);`. -/
def callbackSrc (f : String) : List Tok :=
  [.id "__PYX_EXTERN_C", .id "DL_IMPORT", .lparen, .id "void", .rparen,
   .id f, .lparen, .id "char", .punct "*", .rparen, .punct ";"]

/-- The source line `PyMODINIT_FUNC f(void);`. -/
def initSrc (f : String) : List Tok :=
  [.id "PyMODINIT_FUNC", .id f, .lparen, .id "void", .rparen, .punct ";"]

/-- The controlling expression `PY_MAJOR_VERSION < 3` of line 25. -/
def versionTest : List Tok :=
  [.id "PY_MAJOR_VERSION", .punct "<", .num 3]

/-- Lines 7 to 13 of `unwarp.h`: the guarded definition of `__PYX_EXTERN_C`. -/
def externGuard : Item :=
  .cond (.ifNotDefined "__PYX_EXTERN_C")
    [ .cond (.ifDefined "__cplusplus")
        [ .define "__PYX_EXTERN_C" (.obj [.id "extern", .str "C"]) ]
        [ .define "__PYX_EXTERN_C" (.obj [.id "extern"]) ] ]
    []

/-- Lines 15 to 17 of `unwarp.h`: the guarded definition of `DL_IMPORT`. -/
def dlImportGuard : Item :=
  .cond (.ifNotDefined "DL_IMPORT")
    [ .define "DL_IMPORT" (.fn ["_T"] [.id "_T"]) ]
    []

/-- Lines 5 to 23 of `unwarp.h`: the block guarded by
`#ifndef __PYX_HAVE_API__unwarp`. -/
def callbackBlock : Item :=
  .cond (.ifNotDefined "__PYX_HAVE_API__unwarp")
    [ externGuard,
      dlImportGuard,
      .text (callbackSrc "pydebug"),
      .text (callbackSrc "pyinfo"),
      .text (callbackSrc "pyuser") ]
    []

/-- Lines 25 to 29 of `unwarp.h`: `#if PY_MAJOR_VERSION < 3` and its two
prototype lines. -/
def initBlock : Item :=
  .cond (.ifExpr versionTest)
    [ .text (initSrc "initunwarp") ]
    [ .text (initSrc "PyInit_unwarp") ]

/-- The file `unwarp.h`: the include guard around the guard's `#define`, the
callback block and the module-init block. -/
def unwarp_h : List Item :=
  [ .cond (.ifNotDefined "__PYX_HAVE__unwarp")
      [ .define "__PYX_HAVE__unwarp" (.obj []),
        callbackBlock,
        initBlock ]
      [] ]

/-- The effect of `#include "unwarp.h"` on a preprocessor state: the new
state and the text lines that reach the compiler. -/
def includeHeader (env : Env) : Option (Env × List (List Tok)) :=
  runItems env unwarp_h

/-- The effect of two consecutive `#include "unwarp.h"` lines. -/
def includeTwice (env : Env) : Option (Env × List (List Tok)) :=
  match includeHeader env with
  | none => none
  | some (env1, out1) =>
    match includeHeader env1 with
    | none => none
    | some (env2, out2) => some (env2, out1 ++ out2)

/-! ## Reading the output -/

/-- Tokens without which a line cannot define a type, give a function a body,
initialise an object or declare a second declarator. -/
def definingTokens : List Tok :=
  [.punct ";", .punct "\x7b", .punct "\x7d", .punct "<%", .punct "%>", .punct "=", .comma,
   .id "typedef", .id "struct", .id "union", .id "enum", .id "class"]

/-- A token sequence free of defining tokens. -/
def Clean (toks : List Tok) : Prop :=
  ∀ t ∈ toks, t ∉ definingTokens

instance (toks : List Tok) : Decidable (Clean toks) :=
  inferInstanceAs (Decidable (∀ t ∈ toks, t ∉ definingTokens))

/-- Words after which declaration specifiers take a parenthesised operand. -/
def operandWords : List String :=
  ["__attribute__", "__attribute", "__declspec", "_Alignas", "alignas", "__typeof__",
   "__typeof", "typeof", "decltype", "_Atomic"]

/-- Parentheses in a specifier sequence: a group opens only right after an
operand word or inside a group, and every group is closed.  The arguments are
the depth of open groups and whether the last token was an operand word. -/
def groupsOK : Nat → Bool → List Tok → Bool
  | d, _, [] => d == 0
  | d, after, Tok.lparen :: rest => (d != 0 || after) && groupsOK (d + 1) false rest
  | d, _, Tok.rparen :: rest => d != 0 && groupsOK (d - 1) false rest
  | d, _, Tok.id x :: rest => groupsOK d (decide (x ∈ operandWords)) rest
  | d, _, _ :: rest => groupsOK d false rest

/-- A token sequence that can stand as the declaration specifiers of one
prototype: no defining token, and parentheses only as operands. -/
def SpecOK (toks : List Tok) : Prop :=
  Clean toks ∧ groupsOK 0 false toks = true

instance (toks : List Tok) : Decidable (SpecOK toks) := by
  unfold SpecOK; infer_instance

/-- A function prototype as a C parser reads it off a line
`specifiers name ( params ) ;`. -/
structure Proto where
  specifiers : List Tok
  name : String
  params : List Tok
deriving DecidableEq, Repr

/-- Read a line as exactly one function prototype: it ends in `)` `;`, the
parameter tokens are those after the last `(`, the identifier before that
parenthesis is the declared name, the tokens before the name can stand as
specifiers, and the parameters hold no defining token.  Whether the
specifiers name a type is the compiler's business. -/
def parsePrototype (line : List Tok) : Option Proto :=
  match line.reverse with
  | Tok.punct s :: Tok.rparen :: r =>
    if s = ";" then
      match r.dropWhile (fun t => decide (t ≠ Tok.lparen)) with
      | Tok.lparen :: Tok.id name :: specs =>
        if SpecOK specs.reverse ∧ Clean (r.takeWhile (fun t => decide (t ≠ Tok.lparen))) ∧
            Tok.rparen ∉ r.takeWhile (fun t => decide (t ≠ Tok.lparen)) then
          some ⟨specs.reverse, name, (r.takeWhile (fun t => decide (t ≠ Tok.lparen))).reverse⟩
        else none
      | _ => none
    else none
  | _ => none

/-- Split parameter tokens at commas. -/
def splitCommas : List Tok → List (List Tok)
  | [] => [[]]
  | Tok.comma :: rest => [] :: splitCommas rest
  | t :: rest =>
    match splitCommas rest with
    | [] => [[t]]
    | a :: more => (t :: a) :: more

/-- The parameters a prototype declares: `(void)` and `()` declare none,
otherwise one per comma-separated group. -/
def paramList (params : List Tok) : List (List Tok) :=
  if params = [Tok.id "void"] ∨ params = [] then [] else splitCommas params

/-- The prototypes among the emitted lines, in order. -/
def declared (lines : List (List Tok)) : List Proto :=
  lines.filterMap parsePrototype

/-- The declarator and terminator `f(char *);` of a callback line. -/
def callbackTail (f : String) : List Tok :=
  [.id f, .lparen, .id "char", .punct "*", .rparen, .punct ";"]

/-- The declarator and terminator `f(void);` of a module-init line. -/
def initTail (f : String) : List Tok :=
  [.id f, .lparen, .id "void", .rparen, .punct ";"]

mutual
/-- Every text line of an item, whichever branch it stands in. -/
def Item.texts : Item → List (List Tok)
  | .define _ _ => []
  | .text toks => [toks]
  | .cond _ thn els => textsOf thn ++ textsOf els
/-- Every text line of a sequence of items, in source order. -/
def textsOf : List Item → List (List Tok)
  | [] => []
  | i :: rest => i.texts ++ textsOf rest
end

/-! ## Configurations -/

/-- Identifiers the header writes as plain C text: the C keywords and the
names it declares. -/
def plainNames : List String :=
  ["extern", "void", "char", "pydebug", "pyinfo", "pyuser", "initunwarp", "PyInit_unwarp"]

/-- The includer has not turned the header's plain identifiers into macros. -/
def PlainNames (env : Env) : Prop :=
  ∀ n ∈ plainNames, lookup env n = none

instance (env : Env) : Decidable (PlainNames env) :=
  inferInstanceAs (Decidable (∀ n ∈ plainNames, lookup env n = none))

/-- The state after line 2, the `#define` of the include guard. -/
def afterGuard (env : Env) : Env :=
  ("__PYX_HAVE__unwarp", .obj []) :: env

/-- The replacement list the header gives `__PYX_EXTERN_C` by default. -/
def externDefault (env : Env) : List Tok :=
  if (lookup env "__cplusplus").isSome then [Tok.id "extern", Tok.str "C"]
  else [Tok.id "extern"]

/-- The state after the two guarded `#define`s of the callback block. -/
def withDefaults (env : Env) : Env :=
  (if lookup env "DL_IMPORT" = none then [("DL_IMPORT", MacroDef.fn ["_T"] [Tok.id "_T"])]
    else []) ++
  (if lookup env "__PYX_EXTERN_C" = none then [("__PYX_EXTERN_C", MacroDef.obj (externDefault env))]
    else []) ++ env

/-- The state in which a first inclusion replaces the header's text lines:
the guard is defined, and so are the defaults unless the API macro skips
their block. -/
def lineEnv (env : Env) : Env :=
  if lookup env "__PYX_HAVE_API__unwarp" = none then withDefaults (afterGuard env)
  else afterGuard env

/-- A configuration in which a first inclusion of the header preprocesses to
prototypes: the header's plain identifiers are not macros; in the state of
the text lines, `PyMODINIT_FUNC` stands for `ret`, the test
`PY_MAJOR_VERSION < 3` evaluates to `low`, and, unless the API macro skips
them, `__PYX_EXTERN_C` stands for `ex` and `DL_IMPORT(void)` for `dl`; and
`ret` and `ex dl` can stand as declaration specifiers. -/
def Includer (env : Env) (ex dl ret : List Tok) (low : Bool) : Prop :=
  PlainNames env ∧
  expandTokens (lineEnv env) [Tok.id "PyMODINIT_FUNC"] = some ret ∧ SpecOK ret ∧
  evalIf (lineEnv env) versionTest = some low ∧
  (lookup env "__PYX_HAVE_API__unwarp" = none →
    expandTokens (lineEnv env) [Tok.id "__PYX_EXTERN_C"] = some ex ∧
    expandTokens (lineEnv env) [Tok.id "DL_IMPORT", Tok.lparen, Tok.id "void", Tok.rparen]
      = some dl ∧ SpecOK (ex ++ dl))

instance (env : Env) (ex dl ret : List Tok) (low : Bool) :
    Decidable (Includer env ex dl ret low) := by
  unfold Includer; infer_instance

/-- The linkage specifications `__PYX_EXTERN_C` may stand for in front of
`void`: nothing, `extern`, `static`, and for C++ `extern "C"` and
`extern "C++"`. -/
def Linkage (env : Env) (ex : List Tok) : Prop :=
  ex = [] ∨ ex = [Tok.id "extern"] ∨ ex = [Tok.id "static"] ∨
  ((lookup env "__cplusplus").isSome = true ∧
    (ex = [Tok.id "extern", Tok.str "C"] ∨ ex = [Tok.id "extern", Tok.str "C++"]))

instance (env : Env) (ex : List Tok) : Decidable (Linkage env ex) := by
  unfold Linkage; infer_instance

/-- A token that no macro of the state replaces. -/
def Inert (env : Env) (toks : List Tok) : Prop :=
  ∀ t ∈ toks, ∀ x, t = Tok.id x → lookup env x = none


/-! ## Sample configurations -/

/-- An includer that names its linkage through a macro of its own:
`#define MYEXT extern`, `#define __PYX_EXTERN_C MYEXT`, and
`#define PyMODINIT_FUNC void`. -/
def aliasedLinkage : Env :=
  [("__PYX_EXTERN_C", .obj [.id "MYEXT"]), ("MYEXT", .obj [.id "extern"]),
   ("PyMODINIT_FUNC", .obj [.id "void"])]

/-- A C++ translation unit that has included nothing else. -/
def cplusplusEnv : Env :=
  [("__cplusplus", .obj [.num 201103])]

/-- The macros of C11 6.10.3.5 EXAMPLE 3 that use neither `#` nor `##`:
`#define x 2`, `#define f(a) f(x * (a))`, `#define g f`, `#define z z[0]`,
`#define h g(~`, `#define m(a) a(w)`, `#define w 0,1`, `#define t(a) a`. -/
def standardExample : Env :=
  [("x", .obj [.num 2]),
   ("f", .fn ["a"] [.id "f", .lparen, .id "x", .punct "*", .lparen, .id "a", .rparen, .rparen]),
   ("g", .obj [.id "f"]),
   ("z", .obj [.id "z", .punct "[", .num 0, .punct "]"]),
   ("h", .obj [.id "g", .lparen, .punct "~"]),
   ("m", .fn ["a"] [.id "a", .lparen, .id "w", .rparen]),
   ("w", .obj [.num 0, .comma, .num 1]),
   ("t", .fn ["a"] [.id "a"])]

/-- Macros whose replacement ends in a name that the following text does not
invoke, and an invocation with an argument that is never used:
`#define B H H C`, `#define C`, `#define H(x) )`, `#define F(x)` and
`#define G(x) x x`. -/
def handOverExample : Env :=
  [("B", .obj [.id "H", .id "H", .id "C"]), ("C", .obj []),
   ("H", .fn ["x"] [.rparen]), ("F", .fn ["x"] []),
   ("G", .fn ["x"] [.id "x", .id "x"])]

/-- The macros of C11 6.10.3.4 EXAMPLE: `#define f(a) a*g` and
`#define g(a) f(a)`. -/
def nestingExample : Env :=
  [("f", .fn ["a"] [.id "a", .punct "*", .id "g"]),
   ("g", .fn ["a"] [.id "f", .lparen, .id "a", .rparen])]

/-! ## The header, written out -/

/-- The header with its blocks written out: the whole file as one literal,
directive by directive. -/
theorem unwarp_h_written_out :
    unwarp_h =
      [ .cond (.ifNotDefined "__PYX_HAVE__unwarp")
          [ .define "__PYX_HAVE__unwarp" (.obj []),
            .cond (.ifNotDefined "__PYX_HAVE_API__unwarp")
              [ .cond (.ifNotDefined "__PYX_EXTERN_C")
                  [ .cond (.ifDefined "__cplusplus")
                      [ .define "__PYX_EXTERN_C" (.obj [.id "extern", .str "C"]) ]
                      [ .define "__PYX_EXTERN_C" (.obj [.id "extern"]) ] ]
                  [],
                .cond (.ifNotDefined "DL_IMPORT")
                  [ .define "DL_IMPORT" (.fn ["_T"] [.id "_T"]) ]
                  [],
                .text [.id "__PYX_EXTERN_C", .id "DL_IMPORT", .lparen, .id "void", .rparen,
                       .id "pydebug", .lparen, .id "char", .punct "*", .rparen, .punct ";"],
                .text [.id "__PYX_EXTERN_C", .id "DL_IMPORT", .lparen, .id "void", .rparen,
                       .id "pyinfo", .lparen, .id "char", .punct "*", .rparen, .punct ";"],
                .text [.id "__PYX_EXTERN_C", .id "DL_IMPORT", .lparen, .id "void", .rparen,
                       .id "pyuser", .lparen, .id "char", .punct "*", .rparen, .punct ";"] ]
              [],
            .cond (.ifExpr [.id "PY_MAJOR_VERSION", .punct "<", .num 3])
              [ .text [.id "PyMODINIT_FUNC", .id "initunwarp", .lparen, .id "void", .rparen,
                       .punct ";"] ]
              [ .text [.id "PyMODINIT_FUNC", .id "PyInit_unwarp", .lparen, .id "void",
                       .rparen, .punct ";"] ] ]
          [] ] := rfl

/-! ## Lemmas on macro replacement -/

theorem fresh_append (a b : List Tok) : fresh (a ++ b) = fresh a ++ fresh b := by
  simp [fresh]

theorem strip_append (a b : List MTok) : strip (a ++ b) = strip a ++ strip b := by
  simp [strip]

theorem strip_fresh (a : List Tok) : strip (fresh a) = a := by
  induction a with
  | nil => rfl
  | cons t a ih => simp only [fresh, strip, List.map_cons, List.cons.injEq, true_and] at ih ⊢; exact ih

/-- Scanning a concatenation is scanning its parts in turn. -/
theorem scan_append (env : Env) (sub : List String → List MTok → Option (Mode × List MTok))
    (hidden : List String) (A B : List MTok) :
    ∀ m : Mode, scan env sub hidden m (A ++ B) =
      match scan env sub hidden m A with
      | none => none
      | some (m1, out1) =>
        match scan env sub hidden m1 B with
        | none => none
        | some (m2, out2) => some (m2, out1 ++ out2) := by
  induction A with
  | nil =>
    intro m
    simp only [List.nil_append, scan]
    cases scan env sub hidden m B with
    | none => rfl
    | some r => simp
  | cons t A ih =>
    intro m
    simp only [List.cons_append, scan, List.append_eq]
    cases step env sub hidden m t with
    | none => rfl
    | some r =>
      obtain ⟨m1, out⟩ := r
      simp only [ih m1]
      cases scan env sub hidden m1 A with
      | none => rfl
      | some r1 =>
        obtain ⟨m2, out1⟩ := r1
        simp only
        cases scan env sub hidden m2 B with
        | none => rfl
        | some r2 => simp

theorem scan_cons (env : Env) (sub : List String → List MTok → Option (Mode × List MTok))
    (hidden : List String) (m : Mode) (t : MTok) (rest : List MTok) :
    scan env sub hidden m (t :: rest) =
      match step env sub hidden m t with
      | none => none
      | some (m1, out) =>
        match scan env sub hidden m1 rest with
        | none => none
        | some (m2, more) => some (m2, out ++ more) := rfl

theorem step_normal (env : Env) (sub : List String → List MTok → Option (Mode × List MTok))
    (hidden : List String) (t : MTok) :
    step env sub hidden .normal t = stepNormal env sub hidden t := by
  simp [step]

/-- A token that names no macro is copied. -/
theorem stepNormal_inert (env : Env) (sub : List String → List MTok → Option (Mode × List MTok))
    (hidden : List String) (t : Tok) (h : ∀ x, t = Tok.id x → lookup env x = none) :
    stepNormal env sub hidden (t, false) = some (.normal, [(t, false)]) := by
  cases t with
  | id x => simp [stepNormal, h x rfl]
  | num k => rfl
  | str k => rfl
  | lparen => rfl
  | rparen => rfl
  | comma => rfl
  | punct k => rfl

/-- Text without macro names is copied by the scan. -/
theorem scan_inert (env : Env) (sub : List String → List MTok → Option (Mode × List MTok))
    (hidden : List String) (toks : List Tok) (h : Inert env toks) :
    scan env sub hidden .normal (fresh toks) = some (.normal, fresh toks) := by
  induction toks with
  | nil => rfl
  | cons t toks ih =>
    have ht : ∀ x, t = Tok.id x → lookup env x = none := h t (List.mem_cons_self _ _)
    have hr : Inert env toks := fun u hu => h u (List.mem_cons_of_mem _ hu)
    simp only [fresh, List.map_cons, scan, step, stepNormal_inert env sub hidden t ht]
    have := ih hr
    simp only [fresh] at this
    simp [this]

/-- Text without macro names is its own replacement, and plain text follows. -/
theorem expand_inert (env : Env) (n : Nat) (hidden : List String) (toks : List Tok)
    (h : Inert env toks) :
    expand env (n + 1) hidden (fresh toks) = some (.normal, fresh toks) := by
  simp [expand, scan_inert env _ hidden toks h, handOver]

/-- At a token other than `(`, a scan that stands after the name of a
function-like macro goes on as plain text, the name copied. -/
theorem scan_resume (env : Env) (sub : List String → List MTok → Option (Mode × List MTok))
    (hidden : List String) (m : Mode) (f : List MTok) (hf : finish m = some f)
    (t : MTok) (rest : List MTok) (ht : t.1 ≠ Tok.lparen) :
    scan env sub hidden m (t :: rest)
      = (scan env sub hidden .normal (t :: rest)).map (fun r => (r.1, f ++ r.2)) := by
  obtain ⟨tok, b⟩ := t
  have hstep : step env sub hidden m (tok, b)
      = (stepNormal env sub hidden (tok, b)).map (fun r => (r.1, f ++ r.2)) := by
    cases m with
    | normal =>
      simp only [finish, Option.some.injEq] at hf
      subst hf
      simp only [step, List.nil_append]
      cases stepNormal env sub hidden (tok, b) <;> simp
    | named x ps body =>
      simp only [finish, Option.some.injEq] at hf
      subst hf
      cases tok with
      | lparen => exact absurd rfl ht
      | id y => simp only [step, List.singleton_append]
      | num y => simp only [step, List.singleton_append]
      | str y => simp only [step, List.singleton_append]
      | rparen => simp only [step, List.singleton_append]
      | comma => simp only [step, List.singleton_append]
      | punct y => simp only [step, List.singleton_append]
    | args c => simp [finish] at hf
  rw [scan_cons, scan_cons, hstep, step_normal]
  cases stepNormal env sub hidden (tok, b) with
  | none => rfl
  | some r =>
    obtain ⟨m1, out⟩ := r
    simp only [Option.map_some']
    cases scan env sub hidden m1 rest with
    | none => rfl
    | some r1 => simp

/-- Replacement is compositional at a token other than `(`: if `A` on its
own is completely replaced by `a`, then `A` followed by text `t :: rest`
scans as `a` followed by the scan of `t :: rest`. -/
theorem scanText_append (env : Env) (A : List Tok) (a : List Tok)
    (hA : expandTokens env A = some a) (t : Tok) (rest : List Tok) (ht : t ≠ Tok.lparen) :
    ∃ pre : List MTok, strip pre = a ∧
      scanText env .normal (A ++ t :: rest)
        = (scanText env .normal (t :: rest)).map (fun r => (r.1, pre ++ r.2)) := by
  unfold expandTokens at hA
  cases hs : scanText env .normal A with
  | none => simp [hs] at hA
  | some r =>
    obtain ⟨m, out⟩ := r
    simp only [hs] at hA
    cases hf : finish m with
    | none => simp [hf] at hA
    | some f =>
      simp only [hf, Option.map_some', Option.some.injEq] at hA
      refine ⟨out ++ f, hA, ?_⟩
      unfold scanText at hs ⊢
      rw [fresh_append, scan_append, hs]
      simp only
      have := scan_resume env (expand env expansionDepth) [] m f hf (t, false) (fresh rest)
        (by simpa using ht)
      simp only [fresh, List.map_cons] at this ⊢
      rw [this]
      cases scan env (expand env expansionDepth) [] Mode.normal
          ((t, false) :: List.map (fun t => (t, false)) rest) with
      | none => rfl
      | some r2 => simp


/-- Complete replacement is compositional at a token other than `(`. -/
theorem expandTokens_append (env : Env) (A a : List Tok) (hA : expandTokens env A = some a)
    (t : Tok) (rest b : List Tok) (ht : t ≠ Tok.lparen)
    (hB : expandTokens env (t :: rest) = some b) :
    expandTokens env (A ++ t :: rest) = some (a ++ b) := by
  obtain ⟨pre, hpre, hscan⟩ := scanText_append env A a hA t rest ht
  unfold expandTokens at hB ⊢
  rw [hscan]
  cases hs : scanText env .normal (t :: rest) with
  | none => simp [hs] at hB
  | some r =>
    obtain ⟨m, out⟩ := r
    simp only [hs] at hB
    simp only [Option.map_some']
    cases hf : finish m with
    | none => simp [hf] at hB
    | some f =>
      simp only [hf, Option.map_some', Option.some.injEq] at hB ⊢
      rw [List.append_assoc, strip_append, hpre, hB]

/-- A line made of a replaced part `A` and plain text `t :: rest` is replaced
by the replacement of `A` followed by the text. -/
theorem expandLine_append_inert (env : Env) (A a : List Tok)
    (hA : expandTokens env A = some a) (t : Tok) (rest : List Tok) (ht : t ≠ Tok.lparen)
    (hB : Inert env (t :: rest)) :
    expandLine env (A ++ t :: rest) = some (a ++ t :: rest) := by
  obtain ⟨pre, hpre, hscan⟩ := scanText_append env A a hA t rest ht
  have hin : scanText env .normal (t :: rest) = some (.normal, fresh (t :: rest)) :=
    scan_inert env _ [] (t :: rest) hB
  unfold expandLine
  rw [hscan, hin]
  simp only [Option.map_some', strip_append, hpre, strip_fresh]

/-! ## Lemmas on the interpreter -/

theorem runItems_cons (env : Env) (i : Item) (rest : List Item) :
    runItems env (i :: rest) =
      match runItem env i with
      | none => none
      | some (env1, out1) =>
        match runItems env1 rest with
        | none => none
        | some (env2, out2) => some (env2, out1 ++ out2) := by
  rw [runItems]

theorem runItem_cond (env : Env) (c : Cond) (thn els : List Item) :
    runItem env (.cond c thn els) =
      match evalCond env c with
      | none => none
      | some true => runItems env thn
      | some false => runItems env els := by
  rw [runItem]

theorem runItem_define (env : Env) (n : String) (d : MacroDef) :
    runItem env (.define n d) = some ((n, d) :: env, []) := by
  rw [runItem]

theorem runItem_text (env : Env) (toks : List Tok) :
    runItem env (.text toks) = (expandLine env toks).map (fun l => (env, [l])) := by
  rw [runItem]

theorem runItems_singleton (env : Env) (i : Item) : runItems env [i] = runItem env i := by
  rw [runItems_cons]
  cases runItem env i with
  | none => rfl
  | some r => simp [runItems]

/-- A second inclusion: the guard macro is defined, the header is skipped. -/
theorem includeHeader_guarded (env : Env) (h : lookup env "__PYX_HAVE__unwarp" ≠ none) :
    includeHeader env = some (env, []) := by
  cases hl : lookup env "__PYX_HAVE__unwarp" with
  | none => exact absurd hl h
  | some d => simp [includeHeader, unwarp_h, runItems, runItem, evalCond, hl]

theorem inert_initTail (env : Env) (f : String) (hf : lookup env f = none)
    (hvoid : lookup env "void" = none) : Inert env (initTail f) := by
  intro t ht x hx
  simp only [initTail, List.mem_cons, List.mem_singleton, List.not_mem_nil, or_false] at ht
  rcases ht with rfl | rfl | rfl | rfl | rfl <;> simp at hx
  · subst hx; exact hf
  · subst hx; exact hvoid

theorem inert_callbackTail (env : Env) (f : String) (hf : lookup env f = none)
    (hchar : lookup env "char" = none) : Inert env (callbackTail f) := by
  intro t ht x hx
  simp only [callbackTail, List.mem_cons, List.mem_singleton, List.not_mem_nil, or_false] at ht
  rcases ht with rfl | rfl | rfl | rfl | rfl | rfl <;> simp at hx
  · subst hx; exact hf
  · subst hx; exact hchar

/-- Replacement of a module-init source line. -/
theorem expand_initSrc (env : Env) (f : String) (ret : List Tok)
    (hret : expandTokens env [Tok.id "PyMODINIT_FUNC"] = some ret)
    (hf : lookup env f = none) (hvoid : lookup env "void" = none) :
    expandLine env (initSrc f) = some (ret ++ initTail f) :=
  expandLine_append_inert env [Tok.id "PyMODINIT_FUNC"] ret hret (Tok.id f) _ (by simp)
    (inert_initTail env f hf hvoid)

/-- Replacement of a callback source line. -/
theorem expand_callbackSrc (env : Env) (f : String) (ex dl : List Tok)
    (hex : expandTokens env [Tok.id "__PYX_EXTERN_C"] = some ex)
    (hdl : expandTokens env [Tok.id "DL_IMPORT", Tok.lparen, Tok.id "void", Tok.rparen]
      = some dl)
    (hf : lookup env f = none) (hchar : lookup env "char" = none) :
    expandLine env (callbackSrc f) = some (ex ++ dl ++ callbackTail f) := by
  have h1 := expandTokens_append env [Tok.id "__PYX_EXTERN_C"] ex hex (Tok.id "DL_IMPORT")
    [Tok.lparen, Tok.id "void", Tok.rparen] dl (by simp) hdl
  exact expandLine_append_inert env _ (ex ++ dl) h1 (Tok.id f) _ (by simp)
    (inert_callbackTail env f hf hchar)

/-- The module-init block emits exactly one line, chosen by the truth of
`PY_MAJOR_VERSION < 3`, and defines nothing. -/
theorem run_initBlock (env : Env) (ret : List Tok) (low : Bool)
    (hv : evalIf env versionTest = some low)
    (hret : expandTokens env [Tok.id "PyMODINIT_FUNC"] = some ret)
    (hvoid : lookup env "void" = none)
    (h2 : lookup env "initunwarp" = none) (h3 : lookup env "PyInit_unwarp" = none) :
    runItem env initBlock
      = some (env, [ret ++ initTail (if low then "initunwarp" else "PyInit_unwarp")]) := by
  rw [initBlock, runItem_cond]
  simp only [evalCond, hv]
  cases low with
  | true =>
    simp only [runItems_singleton, runItem_text, expand_initSrc env _ ret hret h2 hvoid]
    rfl
  | false =>
    simp only [runItems_singleton, runItem_text, expand_initSrc env _ ret hret h3 hvoid]
    rfl

/-- The callback block is skipped when the API macro is defined. -/
theorem run_callbackBlock_api (env : Env) (hA : lookup env "__PYX_HAVE_API__unwarp" ≠ none) :
    runItem env callbackBlock = some (env, []) := by
  cases hl : lookup env "__PYX_HAVE_API__unwarp" with
  | none => exact absurd hl hA
  | some d => simp [callbackBlock, runItems, runItem, evalCond, hl]

theorem lookup_withDefaults_of_ne (env : Env) (n : String)
    (h1 : n ≠ "__PYX_EXTERN_C") (h2 : n ≠ "DL_IMPORT") :
    lookup (withDefaults env) n = lookup env n := by
  unfold withDefaults
  by_cases hd : lookup env "DL_IMPORT" = none <;>
    by_cases he : lookup env "__PYX_EXTERN_C" = none <;>
    simp [hd, he, lookup, Ne.symm h1, Ne.symm h2]

theorem lookup_withDefaults_extern (env : Env) (h : lookup env "__PYX_EXTERN_C" = none) :
    lookup (withDefaults env) "__PYX_EXTERN_C" = some (.obj (externDefault env)) := by
  unfold withDefaults
  by_cases hd : lookup env "DL_IMPORT" = none <;> simp [hd, h, lookup]

theorem lookup_withDefaults_dl (env : Env) (h : lookup env "DL_IMPORT" = none) :
    lookup (withDefaults env) "DL_IMPORT" = some (.fn ["_T"] [Tok.id "_T"]) := by
  unfold withDefaults
  simp [h, lookup]

theorem run_externGuard (env : Env) :
    runItem env externGuard
      = some ((if lookup env "__PYX_EXTERN_C" = none
          then [("__PYX_EXTERN_C", MacroDef.obj (externDefault env))] else []) ++ env, []) := by
  cases he : lookup env "__PYX_EXTERN_C" with
  | some d => simp [externGuard, runItem, runItems, evalCond, he]
  | none =>
    cases hc : lookup env "__cplusplus" with
    | none => simp [externGuard, runItem, runItems, evalCond, he, hc, externDefault]
    | some d => simp [externGuard, runItem, runItems, evalCond, he, hc, externDefault]

theorem run_dlImportGuard (env : Env) :
    runItem env dlImportGuard
      = some ((if lookup env "DL_IMPORT" = none
          then [("DL_IMPORT", MacroDef.fn ["_T"] [Tok.id "_T"])] else []) ++ env, []) := by
  cases hd : lookup env "DL_IMPORT" with
  | some d => simp [dlImportGuard, runItem, runItems, evalCond, hd]
  | none => simp [dlImportGuard, runItem, runItems, evalCond, hd]

/-- The two guards together lead from `env` to `withDefaults env`. -/
theorem run_guards (env : Env) (tail : List Item) :
    runItems env (externGuard :: dlImportGuard :: tail) = runItems (withDefaults env) tail := by
  have hd : lookup ((if lookup env "__PYX_EXTERN_C" = none
      then [("__PYX_EXTERN_C", MacroDef.obj (externDefault env))] else []) ++ env) "DL_IMPORT"
      = lookup env "DL_IMPORT" := by
    by_cases he : lookup env "__PYX_EXTERN_C" = none <;> simp [he, lookup]
  rw [runItems, run_externGuard]
  simp only
  rw [runItems, run_dlImportGuard, hd]
  simp only [withDefaults, List.append_assoc]
  cases runItems _ tail with
  | none => rfl
  | some r => simp

theorem plainNames_cons (env : Env) (k : String) (d : MacroDef) (hk : k ∉ plainNames)
    (hp : PlainNames env) : PlainNames ((k, d) :: env) := by
  intro n hn
  have hne : k ≠ n := fun h => hk (h ▸ hn)
  simp [lookup, hne, hp n hn]

theorem plainNames_withDefaults (env : Env) (hp : PlainNames env) :
    PlainNames (withDefaults env) := by
  intro n hn
  rw [lookup_withDefaults_of_ne env n, hp n hn]
  · rintro rfl; revert hn; decide
  · rintro rfl; revert hn; decide

theorem plainNames_lineEnv (env : Env) (hp : PlainNames env) : PlainNames (lineEnv env) := by
  have h1 := plainNames_cons env "__PYX_HAVE__unwarp" (.obj []) (by decide) hp
  unfold lineEnv
  split
  · exact plainNames_withDefaults _ h1
  · exact h1

/-- First inclusion without the API macro: the callback block installs the
default macros and emits the three callback lines. -/
theorem run_callbackBlock (env : Env) (ex dl : List Tok)
    (hA : lookup env "__PYX_HAVE_API__unwarp" = none)
    (hp : PlainNames env)
    (hex : expandTokens (withDefaults env) [Tok.id "__PYX_EXTERN_C"] = some ex)
    (hdl : expandTokens (withDefaults env)
      [Tok.id "DL_IMPORT", Tok.lparen, Tok.id "void", Tok.rparen] = some dl) :
    runItem env callbackBlock
      = some (withDefaults env,
          [ex ++ dl ++ callbackTail "pydebug", ex ++ dl ++ callbackTail "pyinfo",
           ex ++ dl ++ callbackTail "pyuser"]) := by
  have pl := plainNames_withDefaults env hp
  have e1 := expand_callbackSrc (withDefaults env) "pydebug" ex dl hex hdl (pl _ (by decide))
    (pl _ (by decide))
  have e2 := expand_callbackSrc (withDefaults env) "pyinfo" ex dl hex hdl (pl _ (by decide))
    (pl _ (by decide))
  have e3 := expand_callbackSrc (withDefaults env) "pyuser" ex dl hex hdl (pl _ (by decide))
    (pl _ (by decide))
  rw [callbackBlock, runItem_cond]
  simp only [evalCond, hA, Option.isNone_none]
  rw [run_guards]
  simp [runItems, runItem, e1, e2, e3]

/-! ## The header as a whole -/

theorem includeHeader_unfold (env : Env) (h : lookup env "__PYX_HAVE__unwarp" = none) :
    includeHeader env = runItems (afterGuard env) [callbackBlock, initBlock] := by
  unfold includeHeader unwarp_h afterGuard
  rw [runItems_singleton, runItem_cond]
  simp only [evalCond, h, Option.isNone_none]
  rw [runItems_cons, runItem_define]
  simp only
  cases runItems (("__PYX_HAVE__unwarp", MacroDef.obj []) :: env) [callbackBlock, initBlock] with
  | none => rfl
  | some r => simp

theorem lookup_afterGuard (env : Env) (n : String) (h : n ≠ "__PYX_HAVE__unwarp") :
    lookup (afterGuard env) n = lookup env n := by
  simp [afterGuard, lookup, Ne.symm h]

/-- First inclusion without the API macro: the guard and the missing defaults
are defined, and the three callback lines and the module-init line are
emitted in source order. -/
theorem includeHeader_full (env : Env) (ex dl ret : List Tok) (low : Bool)
    (hH : lookup env "__PYX_HAVE__unwarp" = none)
    (hA : lookup env "__PYX_HAVE_API__unwarp" = none)
    (hI : Includer env ex dl ret low) :
    includeHeader env = some (withDefaults (afterGuard env),
      [ex ++ dl ++ callbackTail "pydebug", ex ++ dl ++ callbackTail "pyinfo",
       ex ++ dl ++ callbackTail "pyuser",
       ret ++ initTail (if low then "initunwarp" else "PyInit_unwarp")]) := by
  obtain ⟨hp, hret, _, hv, hcb⟩ := hI
  obtain ⟨hex, hdl, _⟩ := hcb hA
  have hle : lineEnv env = withDefaults (afterGuard env) := by simp [lineEnv, hA]
  rw [hle] at hret hv hex hdl
  have hp1 := plainNames_cons env "__PYX_HAVE__unwarp" (.obj []) (by decide) hp
  have hp2 := plainNames_withDefaults _ hp1
  have hA1 : lookup (afterGuard env) "__PYX_HAVE_API__unwarp" = none := by
    rw [lookup_afterGuard _ _ (by decide)]; exact hA
  have r := run_initBlock (withDefaults (afterGuard env)) ret low hv hret (hp2 _ (by decide))
    (hp2 _ (by decide)) (hp2 _ (by decide))
  rw [includeHeader_unfold env hH, runItems_cons,
    run_callbackBlock (afterGuard env) ex dl hA1 hp1 hex hdl]
  simp only [runItems_singleton, r]
  rfl


theorem runItems_text_env (ls : List (List Tok)) :
    ∀ (e e2 : Env) (out : List (List Tok)),
      runItems e (ls.map Item.text) = some (e2, out) → e2 = e := by
  induction ls with
  | nil =>
    intro e e2 out h
    simp [runItems] at h
    exact h.1.symm
  | cons l ls ih =>
    intro e e2 out h
    rw [List.map_cons, runItems_cons, runItem_text] at h
    cases hl : expandLine e l with
    | none => simp [hl] at h
    | some x =>
      simp only [hl, Option.map_some'] at h
      cases hr : runItems e (ls.map Item.text) with
      | none => simp [hr] at h
      | some r =>
        obtain ⟨e3, out3⟩ := r
        simp only [hr, Option.some.injEq, Prod.mk.injEq] at h
        rw [← h.1]
        exact ih e e3 out3 hr

/-- Whatever the configuration, the callback block leaves the environment as
it is or adds the default macros. -/
theorem run_callbackBlock_env (e e2 : Env) (out : List (List Tok))
    (h : runItem e callbackBlock = some (e2, out)) : e2 = e ∨ e2 = withDefaults e := by
  by_cases hA : lookup e "__PYX_HAVE_API__unwarp" = none
  · right
    rw [callbackBlock, runItem_cond] at h
    simp only [evalCond, hA, Option.isNone_none] at h
    rw [run_guards] at h
    exact runItems_text_env [callbackSrc "pydebug", callbackSrc "pyinfo", callbackSrc "pyuser"]
      _ _ _ h
  · left
    rw [run_callbackBlock_api e hA] at h
    simp only [Option.some.injEq, Prod.mk.injEq] at h
    exact h.1.symm

/-- Whatever the configuration, the module-init block defines no macro. -/
theorem run_initBlock_env (e e2 : Env) (out : List (List Tok))
    (h : runItem e initBlock = some (e2, out)) : e2 = e := by
  rw [initBlock, runItem_cond] at h
  cases hc : evalCond e (.ifExpr versionTest) with
  | none => simp [hc] at h
  | some b =>
    cases b with
    | true =>
      simp only [hc] at h
      exact runItems_text_env [initSrc "initunwarp"] _ _ _ h
    | false =>
      simp only [hc] at h
      exact runItems_text_env [initSrc "PyInit_unwarp"] _ _ _ h

/-- The environment after a successful first inclusion, in any configuration. -/
theorem includeHeader_env (env env1 : Env) (lines : List (List Tok))
    (hH : lookup env "__PYX_HAVE__unwarp" = none)
    (h : includeHeader env = some (env1, lines)) :
    env1 = afterGuard env ∨ env1 = withDefaults (afterGuard env) := by
  rw [includeHeader_unfold env hH, runItems_cons] at h
  cases hc : runItem (afterGuard env) callbackBlock with
  | none => simp [hc] at h
  | some r =>
    obtain ⟨e2, out2⟩ := r
    simp only [hc] at h
    rw [runItems_singleton] at h
    cases hi : runItem e2 initBlock with
    | none => simp [hi] at h
    | some r3 =>
      obtain ⟨e3, out3⟩ := r3
      simp only [hi, Option.some.injEq, Prod.mk.injEq] at h
      have h3 := run_initBlock_env _ _ _ hi
      have h2 := run_callbackBlock_env _ _ _ hc
      rw [← h.1, h3]
      exact h2

/-- After a successful inclusion the guard macro is defined. -/
theorem includeHeader_defines_guard (env env1 : Env) (lines : List (List Tok))
    (h : includeHeader env = some (env1, lines)) :
    lookup env1 "__PYX_HAVE__unwarp" ≠ none := by
  by_cases hH : lookup env "__PYX_HAVE__unwarp" = none
  · rcases includeHeader_env env env1 lines hH h with rfl | rfl
    · simp [afterGuard, lookup]
    · rw [lookup_withDefaults_of_ne _ _ (by decide) (by decide)]
      simp [afterGuard, lookup]
  · rw [includeHeader_guarded env hH] at h
    simp only [Option.some.injEq, Prod.mk.injEq] at h
    rw [← h.1]
    exact hH

theorem parse_callback (specs : List Tok) (f : String) (h : SpecOK specs) :
    parsePrototype (specs ++ callbackTail f)
      = some ⟨specs, f, [Tok.id "char", Tok.punct "*"]⟩ := by
  have hc : Clean [Tok.punct "*", Tok.id "char"] := by decide
  simp [parsePrototype, callbackTail, List.takeWhile, List.dropWhile, h, hc]

theorem parse_init (specs : List Tok) (f : String) (h : SpecOK specs) :
    parsePrototype (specs ++ initTail f) = some ⟨specs, f, [Tok.id "void"]⟩ := by
  have hc : Clean [Tok.id "void"] := by decide
  simp [parsePrototype, initTail, List.takeWhile, List.dropWhile, h, hc]

/-- Tokens that cannot stand as specifiers make the line no prototype. -/
theorem parse_unfit (specs : List Tok) (f : String) (h : ¬ SpecOK specs) :
    parsePrototype (specs ++ initTail f) = none := by
  simp [parsePrototype, initTail, List.takeWhile, List.dropWhile, h]


/-! ## What the header's own macros and simple includer macros stand for -/

theorem expansionDepth_succ : expansionDepth = 63 + 1 := rfl

/-- An object-like macro whose replacement list names no macro stands for
that list. -/
theorem expandTokens_obj_inert (env : Env) (x : String) (body : List Tok)
    (hx : lookup env x = some (.obj body)) (hb : Inert env body) :
    expandTokens env [Tok.id x] = some body := by
  have hsub : expand env expansionDepth [x] (fresh body) = some (.normal, fresh body) := by
    rw [expansionDepth_succ]; exact expand_inert env 63 [x] body hb
  simp [expandTokens, scanText, fresh, scan, step, stepNormal, hx]
  simp only [fresh] at hsub
  simp only [hsub]
  have hs := strip_fresh body
  simp only [fresh] at hs
  simp [finish, hs]

/-- Inside an argument list at depth 0, tokens other than parentheses and
commas are collected into the current argument up to the closing parenthesis. -/
theorem scan_args_plain (env : Env) (sub : List String → List MTok → Option (Mode × List MTok))
    (hidden : List String) (arg : List Tok)
    (hplain : ∀ t ∈ arg, t ≠ Tok.lparen ∧ t ≠ Tok.rparen ∧ t ≠ Tok.comma) :
    ∀ (c : Call), c.depth = 0 → ∀ rest : List MTok,
      scan env sub hidden (.args c) (fresh arg ++ (Tok.rparen, false) :: rest)
        = match closeCall env sub hidden
              ⟨c.name, c.params, c.body, 0, c.done, c.cur ++ fresh arg⟩ with
          | none => none
          | some (m1, out) =>
            match scan env sub hidden m1 rest with
            | none => none
            | some (m2, more) => some (m2, out ++ more) := by
  induction arg with
  | nil =>
    intro c hc rest
    obtain ⟨n, ps, b, d, dn, cu⟩ := c
    simp only at hc
    subst hc
    simp [fresh, scan_cons, step, stepArgs]
  | cons t arg ih =>
    intro c hc rest
    have ht := hplain t (List.mem_cons_self _ _)
    have hrest : ∀ u ∈ arg, u ≠ Tok.lparen ∧ u ≠ Tok.rparen ∧ u ≠ Tok.comma :=
      fun u hu => hplain u (List.mem_cons_of_mem _ hu)
    have hstep : step env sub hidden (.args c) (t, false)
        = some (.args ⟨c.name, c.params, c.body, c.depth, c.done, c.cur ++ [(t, false)]⟩, []) := by
      cases t with
      | lparen => exact absurd rfl ht.1
      | rparen => exact absurd rfl ht.2.1
      | comma => exact absurd rfl ht.2.2
      | id x => simp [step, stepArgs]
      | num x => simp [step, stepArgs]
      | str x => simp [step, stepArgs]
      | punct x => simp [step, stepArgs]
    have hi := ih hrest ⟨c.name, c.params, c.body, c.depth, c.done, c.cur ++ [(t, false)]⟩
      hc rest
    simp only [fresh, List.map_cons, List.cons_append, scan_cons, hstep] at hi ⊢
    rw [hi]
    simp only [List.append_assoc, List.singleton_append, List.nil_append]
    cases closeCall env sub hidden
      ⟨c.name, c.params, c.body, 0, c.done,
        c.cur ++ (t, false) :: List.map (fun t => (t, false)) arg⟩ with
    | none => rfl
    | some r =>
      obtain ⟨m1, out⟩ := r
      simp only
      cases scan env sub hidden m1 rest with
      | none => rfl
      | some r2 => rfl

theorem substitute_append (ps : List String) (args : List (List MTok)) (a b : List Tok) :
    substitute ps args (a ++ b) = substitute ps args a ++ substitute ps args b := by
  induction a with
  | nil => rfl
  | cons t a ih =>
    cases t with
    | id x =>
      simp only [List.cons_append, substitute]
      cases argFor ps args x <;> simp [ih]
    | num x => simp [substitute, ih]
    | str x => simp [substitute, ih]
    | lparen => simp [substitute, ih]
    | rparen => simp [substitute, ih]
    | comma => simp [substitute, ih]
    | punct x => simp [substitute, ih]

theorem substitute_absent (p : String) (a : List MTok) (toks : List Tok)
    (h : Tok.id p ∉ toks) : substitute [p] [a] toks = fresh toks := by
  induction toks with
  | nil => rfl
  | cons t toks ih =>
    have h1 : Tok.id p ≠ t := fun e => h (e ▸ List.mem_cons_self _ _)
    have h2 : Tok.id p ∉ toks := fun e => h (List.mem_cons_of_mem _ e)
    cases t with
    | id x =>
      have hne : p ≠ x := fun e => h1 (by rw [e])
      simp [substitute, argFor, hne, ih h2, fresh]
    | num x => simp [substitute, ih h2, fresh]
    | str x => simp [substitute, ih h2, fresh]
    | lparen => simp [substitute, ih h2, fresh]
    | rparen => simp [substitute, ih h2, fresh]
    | comma => simp [substitute, ih h2, fresh]
    | punct x => simp [substitute, ih h2, fresh]

/-- A one-parameter macro whose replacement list `pre p post` names no macro
stands, applied to a plain argument, for `pre arg post`. -/
theorem expandTokens_call_inert (env : Env) (x p : String) (pre post arg : List Tok)
    (hx : lookup env x = some (.fn [p] (pre ++ Tok.id p :: post)))
    (hpre : Inert env pre) (hpost : Inert env post) (harg : Inert env arg)
    (hp1 : Tok.id p ∉ pre) (hp2 : Tok.id p ∉ post)
    (hplain : ∀ t ∈ arg, t ≠ Tok.lparen ∧ t ≠ Tok.rparen ∧ t ≠ Tok.comma) :
    expandTokens env (Tok.id x :: Tok.lparen :: (arg ++ [Tok.rparen]))
      = some (pre ++ arg ++ post) := by
  have hall : Inert env (pre ++ arg ++ post) := by
    intro t ht
    simp only [List.mem_append] at ht
    rcases ht with (h | h) | h
    · exact hpre t h
    · exact harg t h
    · exact hpost t h
  have hsub1 : complete (expand env expansionDepth [] (fresh arg)) = some (fresh arg) := by
    rw [expansionDepth_succ, expand_inert env 63 [] arg harg]; simp [complete, finish]
  have hsub2 : expand env expansionDepth [x] (fresh (pre ++ arg ++ post))
      = some (.normal, fresh (pre ++ arg ++ post)) := by
    rw [expansionDepth_succ]; exact expand_inert env 63 [x] _ hall
  have hsubst : substitute [p] [fresh arg] (pre ++ Tok.id p :: post)
      = fresh (pre ++ arg ++ post) := by
    rw [substitute_append, substitute_absent p _ pre hp1]
    simp only [substitute, argFor, if_true]
    rw [substitute_absent p _ post hp2]
    simp [fresh]
  have hclose : closeCall env (expand env expansionDepth) []
      ⟨x, [p], pre ++ Tok.id p :: post, 0, [], [] ++ fresh arg⟩
      = some (.normal, fresh (pre ++ arg ++ post)) := by
    simp only [closeCall, List.nil_append, bindArgs, List.length_singleton, if_true,
      replaceAll, List.mem_append, List.mem_cons, true_or, or_true, hsub1, hsubst, hsub2]
  have hscan := scan_args_plain env (expand env expansionDepth) [] arg hplain
    ⟨x, [p], pre ++ Tok.id p :: post, 0, [], []⟩ rfl []
  simp only [hclose, scan, List.append_nil] at hscan
  unfold expandTokens scanText
  simp only [fresh, List.map_cons, List.map_append, List.map_nil, scan_cons, step, stepNormal,
    hx, List.not_mem_nil, if_false, List.nil_append]
  simp only [fresh] at hscan
  rw [hscan]
  have hs := strip_fresh (pre ++ arg ++ post)
  simp only [fresh, List.map_append, List.append_assoc] at hs
  simp [finish, hs]


theorem declared_full (ex dl ret : List Tok) (f : String)
    (hc : SpecOK (ex ++ dl)) (hret : SpecOK ret) :
    declared [ex ++ dl ++ callbackTail "pydebug", ex ++ dl ++ callbackTail "pyinfo",
        ex ++ dl ++ callbackTail "pyuser", ret ++ initTail f]
      = [⟨ex ++ dl, "pydebug", [Tok.id "char", Tok.punct "*"]⟩,
         ⟨ex ++ dl, "pyinfo", [Tok.id "char", Tok.punct "*"]⟩,
         ⟨ex ++ dl, "pyuser", [Tok.id "char", Tok.punct "*"]⟩,
         ⟨ret, f, [Tok.id "void"]⟩] := by
  simp only [declared, List.filterMap_cons, List.filterMap_nil, parse_callback _ _ hc,
    parse_init _ _ hret]

/-- C11 6.10.3.5 EXAMPLE 3, first line: `f(y+1) + f(f(z)) % t(t(g)(0) + t)(1);`
becomes `f(2 * (y+1)) + f(2 * (f(2 * (z[0])))) % f(2 * (0)) + t(1);`. -/
theorem standard_example_first_line :
    expandTokens standardExample
        [.id "f", .lparen, .id "y", .punct "+", .num 1, .rparen, .punct "+",
         .id "f", .lparen, .id "f", .lparen, .id "z", .rparen, .rparen, .punct "%",
         .id "t", .lparen, .id "t", .lparen, .id "g", .rparen, .lparen, .num 0, .rparen,
         .punct "+", .id "t", .rparen, .lparen, .num 1, .rparen, .punct ";"]
      = some
        [.id "f", .lparen, .num 2, .punct "*", .lparen, .id "y", .punct "+", .num 1, .rparen,
         .rparen, .punct "+",
         .id "f", .lparen, .num 2, .punct "*", .lparen, .id "f", .lparen, .num 2, .punct "*",
         .lparen, .id "z", .punct "[", .num 0, .punct "]", .rparen, .rparen, .rparen, .rparen,
         .punct "%",
         .id "f", .lparen, .num 2, .punct "*", .lparen, .num 0, .rparen, .rparen,
         .punct "+", .id "t", .lparen, .num 1, .rparen, .punct ";"] := by
  decide

/-- C11 6.10.3.5 EXAMPLE 3, second line:
`g(x+(3,4)-w) | h 5) & m (f)^m(m);` becomes
`f(2 * (2+(3,4)-0,1)) | f(2 * (~ 5)) & f(2 * (0,1))^m(0,1);`. -/
theorem standard_example_second_line :
    expandTokens standardExample
        [.id "g", .lparen, .id "x", .punct "+", .lparen, .num 3, .comma, .num 4, .rparen,
         .punct "-", .id "w", .rparen, .punct "|", .id "h", .num 5, .rparen,
         .punct "&", .id "m", .lparen, .id "f", .rparen,
         .punct "^", .id "m", .lparen, .id "m", .rparen, .punct ";"]
      = some
        [.id "f", .lparen, .num 2, .punct "*", .lparen, .num 2, .punct "+", .lparen, .num 3,
         .comma, .num 4, .rparen, .punct "-", .num 0, .comma, .num 1, .rparen, .rparen,
         .punct "|",
         .id "f", .lparen, .num 2, .punct "*", .lparen, .punct "~", .num 5, .rparen, .rparen,
         .punct "&",
         .id "f", .lparen, .num 2, .punct "*", .lparen, .num 0, .comma, .num 1, .rparen,
         .rparen, .punct "^", .id "m", .lparen, .num 0, .comma, .num 1, .rparen,
         .punct ";"] := by
  decide

/-- A name at the end of a replacement that an empty replacement follows is
not invoked by a later `(`: with `handOverExample`, `B ( F ( C ) )` becomes
`H H ( )`.  An argument that is never substituted is never replaced, so the
wrong invocation `F(1,2)` inside it is no error: `F ( F ( 1 , 2 ) )` becomes
nothing, where `G ( F ( 1 , 2 ) )` fails. -/
theorem hand_over_example :
    expandTokens handOverExample
        [.id "B", .lparen, .id "F", .lparen, .id "C", .rparen, .rparen]
      = some [.id "H", .id "H", .lparen, .rparen] ∧
    expandTokens handOverExample
        [.id "F", .lparen, .id "F", .lparen, .num 1, .comma, .num 2, .rparen, .rparen]
      = some [] ∧
    expandTokens handOverExample
        [.id "G", .lparen, .id "F", .lparen, .num 1, .comma, .num 2, .rparen, .rparen]
      = none := by
  decide

/-- C11 6.10.3.4 EXAMPLE, where the standard allows two results for
`f(2)(9)`: the model gives `2*9*g`, as compilers do. -/
theorem nesting_example :
    expandTokens nestingExample
        [.id "f", .lparen, .num 2, .rparen, .lparen, .num 9, .rparen]
      = some [.num 2, .punct "*", .num 9, .punct "*", .id "g"] := by
  decide

/-- The arithmetic of `#if`: signed comparison, parentheses, unary minus and
sums; a constant from `2 ^ 63` on is unsigned and turns the comparison
unsigned; a constant from `2 ^ 64` on is none; an identifier counts as 0; a
division by zero is an error only where it is evaluated. -/
theorem if_arithmetic_examples :
    evalTokens [.num 2, .punct "<", .num 3] = some true ∧
    evalTokens [.num 3, .punct "<", .num 3] = some false ∧
    evalTokens [.lparen, .num 3, .rparen, .punct "<", .num 3] = some false ∧
    evalTokens [.punct "-", .num 1, .punct "<", .num 3] = some true ∧
    evalTokens [.num 1, .punct "+", .num 1, .punct "<", .num 3] = some true ∧
    evalTokens [.num 9223372036854775808, .punct "<", .num 3] = some false ∧
    evalTokens [.punct "-", .num 1, .punct "<", .num 9223372036854775808] = some false ∧
    evalTokens [.num 18446744073709551616, .punct "<", .num 3] = none ∧
    evalTokens [.id "PY_MAJOR_VERSION", .punct "<", .num 3] = some true ∧
    evalTokens [.num 1, .punct "/", .num 0, .punct "<", .num 3] = none ∧
    evalTokens [.num 0, .punct "&&", .num 1, .punct "/", .num 0] = some false ∧
    evalTokens [.num 1, .punct "||", .num 1, .punct "/", .num 0] = some true ∧
    evalTokens [.num 0, .punct "||", .num 1, .punct "/", .num 0] = none ∧
    evalTokens [.num 1, .punct "?", .num 2, .punct ":", .num 1, .punct "/", .num 0]
      = some true := by
  decide

/-! ## The claims -/

/-- C2: on a first inclusion with `__PYX_HAVE_API__unwarp` undefined and the
default `DL_IMPORT`, every line the header emits is one prototype, and the
logging callbacks `pydebug`, `pyinfo`, `pyuser` are declared in this order,
once each and with the same signature: return type `void`, after the linkage
specification `__PYX_EXTERN_C` stands for, and the single parameter
`char *`. -/
theorem C2_three_logging_callbacks (env : Env) (ex dl ret : List Tok) (low : Bool)
    (hfirst : lookup env "__PYX_HAVE__unwarp" = none)
    (hapi : lookup env "__PYX_HAVE_API__unwarp" = none)
    (hdefault : lookup env "DL_IMPORT" = none)
    (hcfg : Includer env ex dl ret low)
    (hlink : Linkage env ex) :
    ∃ env1 lines, includeHeader env = some (env1, lines) ∧
      (∀ l ∈ lines, (parsePrototype l).isSome = true) ∧
      (declared lines).filter
          (fun p => p.name = "pydebug" ∨ p.name = "pyinfo" ∨ p.name = "pyuser")
        = [⟨ex ++ [Tok.id "void"], "pydebug", [Tok.id "char", Tok.punct "*"]⟩,
           ⟨ex ++ [Tok.id "void"], "pyinfo", [Tok.id "char", Tok.punct "*"]⟩,
           ⟨ex ++ [Tok.id "void"], "pyuser", [Tok.id "char", Tok.punct "*"]⟩] ∧
      paramList [Tok.id "char", Tok.punct "*"] = [[Tok.id "char", Tok.punct "*"]] ∧
      Linkage env ex := by
  have hp := plainNames_lineEnv env hcfg.1
  have hcr := hcfg.2.2.1
  obtain ⟨_, hdl, hc⟩ := hcfg.2.2.2.2 hapi
  have hle : lineEnv env = withDefaults (afterGuard env) := by simp [lineEnv, hapi]
  have hd1 : lookup (lineEnv env) "DL_IMPORT" = some (.fn ["_T"] [Tok.id "_T"]) := by
    rw [hle]
    exact lookup_withDefaults_dl _ (by rw [lookup_afterGuard _ _ (by decide)]; exact hdefault)
  have hvoid : Inert (lineEnv env) [Tok.id "void"] := by
    intro t ht x hx; simp at ht; subst ht; simp at hx; subst hx; exact hp _ (by decide)
  have hcall := expandTokens_call_inert (lineEnv env) "DL_IMPORT" "_T" [] [] [Tok.id "void"]
    hd1 (by intro t ht; simp at ht) (by intro t ht; simp at ht) hvoid (by simp) (by simp)
    (by simp)
  have hdv : dl = [Tok.id "void"] := by
    have h2 : some dl = some ([] ++ [Tok.id "void"] ++ []) := by rw [← hdl, ← hcall]; rfl
    simpa using h2
  subst hdv
  refine ⟨_, _, includeHeader_full env ex [Tok.id "void"] ret low hfirst hapi hcfg, ?_, ?_,
    by decide, hlink⟩
  · intro l hl
    simp only [List.mem_cons, List.mem_singleton, List.not_mem_nil, or_false] at hl
    rcases hl with rfl | rfl | rfl | rfl
    · rw [parse_callback _ _ hc]; rfl
    · rw [parse_callback _ _ hc]; rfl
    · rw [parse_callback _ _ hc]; rfl
    · rw [parse_init _ _ hcr]; rfl
  · rw [declared_full ex [Tok.id "void"] ret _ hc hcr]
    cases low <;> simp [List.filter]

theorem C2_three_logging_callbacks_witness :
    includeHeader aliasedLinkage
        = some (("DL_IMPORT", .fn ["_T"] [.id "_T"]) :: ("__PYX_HAVE__unwarp", .obj [])
            :: aliasedLinkage,
          [[.id "extern", .id "void", .id "pydebug", .lparen, .id "char", .punct "*", .rparen,
              .punct ";"],
           [.id "extern", .id "void", .id "pyinfo", .lparen, .id "char", .punct "*", .rparen,
              .punct ";"],
           [.id "extern", .id "void", .id "pyuser", .lparen, .id "char", .punct "*", .rparen,
              .punct ";"],
           [.id "void", .id "initunwarp", .lparen, .id "void", .rparen, .punct ";"]]) ∧
      ∃ env1 lines, includeHeader aliasedLinkage = some (env1, lines) ∧
        (∀ l ∈ lines, (parsePrototype l).isSome = true) ∧
        (declared lines).filter
            (fun p => p.name = "pydebug" ∨ p.name = "pyinfo" ∨ p.name = "pyuser")
          = [⟨[Tok.id "extern"] ++ [Tok.id "void"], "pydebug", [Tok.id "char", Tok.punct "*"]⟩,
             ⟨[Tok.id "extern"] ++ [Tok.id "void"], "pyinfo", [Tok.id "char", Tok.punct "*"]⟩,
             ⟨[Tok.id "extern"] ++ [Tok.id "void"], "pyuser", [Tok.id "char", Tok.punct "*"]⟩] ∧
        paramList [Tok.id "char", Tok.punct "*"] = [[Tok.id "char", Tok.punct "*"]] ∧
        Linkage aliasedLinkage [Tok.id "extern"] :=
  ⟨by decide,
    C2_three_logging_callbacks aliasedLinkage [.id "extern"] [.id "void"] [.id "void"] true
      (by decide) (by decide) (by decide) (by decide) (by decide)⟩

/-- C4: on a first inclusion with `__PYX_HAVE_API__unwarp` and
`__PYX_EXTERN_C` both undefined, the header defines `__PYX_EXTERN_C` as
`extern "C"` when `__cplusplus` is defined and as `extern` otherwise, that
is what the macro stands for in the callback lines, and each of the three
callback lines is one prototype that starts with exactly these tokens. -/
theorem C4_callbacks_carry_c_linkage (env : Env) (ex dl ret : List Tok) (low : Bool)
    (hfirst : lookup env "__PYX_HAVE__unwarp" = none)
    (hapi : lookup env "__PYX_HAVE_API__unwarp" = none)
    (hlinkage : lookup env "__PYX_EXTERN_C" = none)
    (hcfg : Includer env ex dl ret low) :
    ∃ env1 lines initl, includeHeader env = some (env1, lines) ∧
      lookup env1 "__PYX_EXTERN_C"
        = some (.obj (if (lookup env "__cplusplus").isSome
            then [Tok.id "extern", Tok.str "C"] else [Tok.id "extern"])) ∧
      ex = (if (lookup env "__cplusplus").isSome
            then [Tok.id "extern", Tok.str "C"] else [Tok.id "extern"]) ∧
      lines =
        [(if (lookup env "__cplusplus").isSome
            then [Tok.id "extern", Tok.str "C"] else [Tok.id "extern"]) ++ dl
            ++ callbackTail "pydebug",
         (if (lookup env "__cplusplus").isSome
            then [Tok.id "extern", Tok.str "C"] else [Tok.id "extern"]) ++ dl
            ++ callbackTail "pyinfo",
         (if (lookup env "__cplusplus").isSome
            then [Tok.id "extern", Tok.str "C"] else [Tok.id "extern"]) ++ dl
            ++ callbackTail "pyuser",
         initl] ∧
      (declared lines).map (fun p => p.name)
        = ["pydebug", "pyinfo", "pyuser", if low then "initunwarp" else "PyInit_unwarp"] := by
  have hp := plainNames_lineEnv env hcfg.1
  have hcr := hcfg.2.2.1
  obtain ⟨hex, _, hc⟩ := hcfg.2.2.2.2 hapi
  have hle : lineEnv env = withDefaults (afterGuard env) := by simp [lineEnv, hapi]
  have hcpp : externDefault (afterGuard env)
      = if (lookup env "__cplusplus").isSome
          then [Tok.id "extern", Tok.str "C"] else [Tok.id "extern"] := by
    simp [externDefault, afterGuard, lookup]
  have hx : lookup (lineEnv env) "__PYX_EXTERN_C"
      = some (.obj (if (lookup env "__cplusplus").isSome
          then [Tok.id "extern", Tok.str "C"] else [Tok.id "extern"])) := by
    rw [hle, ← hcpp]
    exact lookup_withDefaults_extern _ (by rw [lookup_afterGuard _ _ (by decide)]; exact hlinkage)
  have hin : Inert (lineEnv env) (if (lookup env "__cplusplus").isSome
      then [Tok.id "extern", Tok.str "C"] else [Tok.id "extern"]) := by
    intro t ht x hx1
    split at ht
    · simp only [List.mem_cons, List.mem_singleton, List.not_mem_nil, or_false] at ht
      rcases ht with rfl | rfl <;> simp at hx1
      subst hx1; exact hp _ (by decide)
    · simp only [List.mem_singleton] at ht
      subst ht; simp at hx1; subst hx1; exact hp _ (by decide)
  have hexp := expandTokens_obj_inert (lineEnv env) "__PYX_EXTERN_C" _ hx hin
  have hexv : ex = (if (lookup env "__cplusplus").isSome
      then [Tok.id "extern", Tok.str "C"] else [Tok.id "extern"]) := by
    rw [hex] at hexp
    exact Option.some.inj hexp
  have hrun := includeHeader_full env ex dl ret low hfirst hapi hcfg
  rw [← hle] at hrun
  refine ⟨_, _, ret ++ initTail (if low then "initunwarp" else "PyInit_unwarp"), hrun, hx,
    hexv, ?_, ?_⟩
  · rw [← hexv]
  · rw [declared_full ex dl ret _ hc hcr]
    rfl

theorem C4_callbacks_carry_c_linkage_witness :
    includeHeader cplusplusEnv
        = some (("DL_IMPORT", .fn ["_T"] [.id "_T"])
            :: ("__PYX_EXTERN_C", .obj [.id "extern", .str "C"])
            :: ("__PYX_HAVE__unwarp", .obj []) :: cplusplusEnv,
          [[.id "extern", .str "C", .id "void", .id "pydebug", .lparen, .id "char", .punct "*",
              .rparen, .punct ";"],
           [.id "extern", .str "C", .id "void", .id "pyinfo", .lparen, .id "char", .punct "*",
              .rparen, .punct ";"],
           [.id "extern", .str "C", .id "void", .id "pyuser", .lparen, .id "char", .punct "*",
              .rparen, .punct ";"],
           [.id "PyMODINIT_FUNC", .id "initunwarp", .lparen, .id "void", .rparen,
              .punct ";"]]) ∧
      ∃ env1 lines initl, includeHeader cplusplusEnv = some (env1, lines) ∧
        lookup env1 "__PYX_EXTERN_C"
          = some (.obj (if (lookup cplusplusEnv "__cplusplus").isSome
              then [Tok.id "extern", Tok.str "C"] else [Tok.id "extern"])) ∧
        [Tok.id "extern", Tok.str "C"] = (if (lookup cplusplusEnv "__cplusplus").isSome
              then [Tok.id "extern", Tok.str "C"] else [Tok.id "extern"]) ∧
        lines =
          [(if (lookup cplusplusEnv "__cplusplus").isSome
              then [Tok.id "extern", Tok.str "C"] else [Tok.id "extern"]) ++ [Tok.id "void"]
              ++ callbackTail "pydebug",
           (if (lookup cplusplusEnv "__cplusplus").isSome
              then [Tok.id "extern", Tok.str "C"] else [Tok.id "extern"]) ++ [Tok.id "void"]
              ++ callbackTail "pyinfo",
           (if (lookup cplusplusEnv "__cplusplus").isSome
              then [Tok.id "extern", Tok.str "C"] else [Tok.id "extern"]) ++ [Tok.id "void"]
              ++ callbackTail "pyuser",
           initl] ∧
        (declared lines).map (fun p => p.name)
          = ["pydebug", "pyinfo", "pyuser", if true then "initunwarp" else "PyInit_unwarp"] :=
  ⟨by decide,
    C4_callbacks_carry_c_linkage cplusplusEnv [.id "extern", .str "C"] [.id "void"]
      [.id "PyMODINIT_FUNC"] true (by decide) (by decide) (by decide) (by decide)⟩

/-- C5: inclusion is idempotent.  From every initial state, two consecutive
inclusions give the same result as one (the same macro definitions and the
same emitted lines, or the same failure), because a successful inclusion
leaves `__PYX_HAVE__unwarp` defined and an inclusion with `__PYX_HAVE__unwarp`
defined emits nothing and leaves the state as it is. -/
theorem C5_inclusion_idempotent (env : Env) :
    includeTwice env = includeHeader env ∧
      (∀ env1 lines, includeHeader env = some (env1, lines) →
        lookup env1 "__PYX_HAVE__unwarp" ≠ none) ∧
      (lookup env "__PYX_HAVE__unwarp" ≠ none → includeHeader env = some (env, [])) := by
  refine ⟨?_, fun env1 lines h => includeHeader_defines_guard env env1 lines h,
    includeHeader_guarded env⟩
  unfold includeTwice
  cases h : includeHeader env with
  | none => rfl
  | some r =>
    obtain ⟨env1, lines⟩ := r
    simp only
    rw [includeHeader_guarded env1 (includeHeader_defines_guard env env1 lines h)]
    simp

theorem C5_inclusion_idempotent_witness :
    (includeHeader [("PY_MAJOR_VERSION", .obj [.num 3])]).isSome = true ∧
      includeTwice [("PY_MAJOR_VERSION", .obj [.num 3])]
        = includeHeader [("PY_MAJOR_VERSION", .obj [.num 3])] :=
  ⟨by decide, (C5_inclusion_idempotent [("PY_MAJOR_VERSION", .obj [.num 3])]).1⟩


end Unwarp
